import Mathlib

/-!
Shallow embedding of the SuperDARNCanada/data_flow mirror gatekeeper
(`mirror/gatekeeper_globus.py`, with `parse_data_filename` shared by
`mirror/gatekeeper_class.py`).  Pure fragments of the Python code are
translated into executable Lean definitions; the filesystem, the Globus
transfer client and the external tools appear as explicit parameters
(lists of directory entries, oracle functions, pre-computed return codes).
Machine-level Python behaviours that the code relies on are modelled
explicitly: `in` on strings is substring containment, `sys.exit` with a
string argument yields process exit status 1, `list.append` takes exactly
one argument, out-of-range indexing raises `IndexError`.
-/

namespace DataFlow

/-- `startsList n h` decides whether the char list `n` is an initial
segment of `h` (helper for Python substring containment). -/
def startsList : List Char → List Char → Bool
  | [], _ => true
  | _ :: _, [] => false
  | a :: as, b :: bs => a = b && startsList as bs

/-- `containsSub n h` decides whether `n` occurs contiguously inside `h`
(helper for Python substring containment). -/
def containsSub (n : List Char) : List Char → Bool
  | [] => n.isEmpty
  | b :: bs => startsList n (b :: bs) || containsSub n bs

/-- Python `needle in haystack` for strings: contiguous substring
containment (the empty needle is contained in everything). -/
def pyInB (needle haystack : String) : Bool :=
  containsSub needle.data haystack.data

/-- Python slicing `s[a:b]` for `0 ≤ a ≤ b`: take at most `b` characters,
drop the first `a` (out-of-range bounds clamp, as in Python). -/
def pySlice (s : String) (a b : Nat) : String :=
  String.mk ((s.data.take b).drop a)

/-- Helper for Python `str.split(sep)` with a one-character separator:
splitting an empty string gives one empty piece, and separators at the
ends produce empty pieces, exactly as in Python. -/
def splitCharList (c : Char) : List Char → List (List Char)
  | [] => [[]]
  | a :: as =>
    let r := splitCharList c as
    if a = c then [] :: r
    else
      match r with
      | [] => [[a]]
      | h :: t => (a :: h) :: t

/-- Python `s.split(c)` for a single-character separator `c`. -/
def pySplit (c : Char) (s : String) : List String :=
  (splitCharList c s.data).map String.mk

/-- Parse a non-empty all-digit char list as a natural number; `none`
otherwise (helper for Python `int(...)`). -/
def digitsToNat? (l : List Char) : Option Nat :=
  if l ≠ [] ∧ l.all Char.isDigit then
    some (l.foldl (fun a c => a * 10 + (c.toNat - '0'.toNat)) 0)
  else none

/-- Python `int(s)` on strings: strip whitespace, then an optional sign
followed by a non-empty digit string; `none` models a raised `ValueError`.
(Underscore digit separators of Python numeric literals are not used by
this program and are not modelled.) -/
def pyInt (s : String) : Option Int :=
  let t := ((s.data.dropWhile Char.isWhitespace).reverse.dropWhile
      Char.isWhitespace).reverse
  match t with
  | [] => none
  | '-' :: ds => (digitsToNat? ds).map (fun n => -(n : Int))
  | '+' :: ds => (digitsToNat? ds).map Int.ofNat
  | ds => (digitsToNat? ds).map Int.ofNat

/-- Python `int(s)` where a failure to parse propagates as a raised
`ValueError`. -/
def pyIntE (s : String) : Except String Int :=
  match pyInt s with
  | some n => .ok n
  | none => .error "ValueError"

/-- Python list indexing `l[i]` for non-negative `i`: out of range raises
`IndexError`. -/
def pyIndex (l : List String) (i : Nat) : Except String String :=
  match l.get? i with
  | some x => .ok x
  | none => .error "IndexError"

/-- The argument given to Python `sys.exit`. -/
inductive PyExitArg
  | noneArg
  | intArg (n : Int)
  | strArg (s : String)
deriving DecidableEq

/-- Process exit status produced by Python `sys.exit`: `None` gives 0, an
integer gives itself, and any other object (in this program always a
message string, which is printed to stderr) gives 1. -/
def sysExitCode : PyExitArg → Int
  | .noneArg => 0
  | .intArg n => n
  | .strArg _ => 1

/-! ### Failure ledger: `Gatekeeper.update_failed` -/

/-- One new failure to record: in the Python code, one key/value pair of
the `add_failed_files` dict (`filename ↦ (hash, reason)`). -/
structure FailRecord where
  filename : String
  hash : String
  reason : String
deriving DecidableEq

/-- The line `update_failed` writes for one record:
`f"{hash}  {filename} | {reason}"`. -/
def recordLine (r : FailRecord) : String :=
  r.hash ++ "  " ++ r.filename ++ " | " ++ r.reason

/-- `Gatekeeper.update_failed`, lines 742-793 of `gatekeeper_globus.py`,
restricted to its effect on the ledger text.  `filetext` is the list of
lines of the fetched `all_failed.txt` (an empty file makes the function
return `None` without writing); `records` lists the entries of
`add_failed_files` in dict insertion order.  For each record the ORIGINAL
`filetext` is scanned: if some line contains both the record's hash and
its filename as substrings the record is skipped, otherwise its line is
appended at the end of the file. -/
def update_failed (filetext : List String) (records : List FailRecord) :
    Option (List String) :=
  if filetext.isEmpty then none
  else
    some (filetext ++ records.foldl (fun acc r =>
      if filetext.any (fun line => pyInB r.hash line && pyInB r.filename line)
      then acc
      else acc ++ [recordLine r]) [])

/-! ### Sorting and set-dedup, as used by `sorted(...)` and `set(...)` -/

/-- Python string comparison: lexicographic by Unicode code point. -/
def lexLeChars : List Char → List Char → Bool
  | [], _ => true
  | _ :: _, [] => false
  | a :: as, b :: bs => if a = b then lexLeChars as bs else decide (a.toNat < b.toNat)

/-- Python `a <= b` on strings. -/
def strLe (a b : String) : Bool :=
  lexLeChars a.data b.data

/-- Insert into a `strLe`-sorted list (helper for `sorted(...)`). -/
def insertSorted (a : String) : List String → List String
  | [] => [a]
  | b :: bs => if strLe a b then a :: b :: bs else b :: insertSorted a bs

/-- Python `sorted(l)` for lists of strings (insertion sort; stable, same
multiset of elements). -/
def pySort (l : List String) : List String :=
  l.foldr insertSorted []

/-- Python `set(l)` materialised back as a list: one occurrence of each
element (iteration order of a Python `set` is unspecified; everything
proved below about a `set` is order-independent). -/
def pySetList : List String → List String
  | [] => []
  | a :: as => if as.contains a then pySetList as else a :: pySetList as

/-- Python `sorted(list(set(l)))`. -/
def pySortedSet (l : List String) : List String :=
  pySort (pySetList l)

/-! ### Step 4: blocklist handling (`main`, lines 1181-1224) -/

/-- One step of glob matching (helper for `fnmatch.fnmatch`): match the
pattern (first explicit argument) against a name starting with `c`, where
`rest ps` matches the pattern `ps` against the rest of the name. -/
def fnmatchCons (c : Char) (rest : List Char → Bool) : List Char → Bool
  | [] => false
  | '*' :: ps => fnmatchCons c rest ps || rest ('*' :: ps)
  | '?' :: ps => rest ps
  | p :: ps => p = c && rest ps

/-- `fnmatch.fnmatch` for the patterns this program uses (literals, `*`
and `?`; no character classes appear in the sources): recursion over the
name; an empty name is matched exactly by an all-`*` pattern. -/
def fnmatchName : List Char → List Char → Bool
  | [] => fun ps => ps.all (fun p => p = '*')
  | c :: cs => fnmatchCons c (fnmatchName cs)

/-- `fnmatch.fnmatch(name, pat)`. -/
def fnmatch (name pat : String) : Bool :=
  fnmatchName name.data pat.data

/-- Python `s.strip(c)` for a one-character argument: remove all leading
and trailing occurrences of `c`. -/
def pyStripChar (c : Char) (s : String) : String :=
  String.mk (((s.data.dropWhile (· = c)).reverse.dropWhile (· = c)).reverse)

/-- One file of the fetched blocklist directory: its name and its lines
(each line as read by Python file iteration, before stripping). -/
structure BlocklistFile where
  name : String
  lines : List String

/-- Lines 1182-1185: the `*.txt` entries of the fetched blocklist
directory. -/
def blocklist_files (dir : List BlocklistFile) : List BlocklistFile :=
  dir.filter (fun f => fnmatch f.name "*.txt")

/-- Lines 1189-1193: every line of every blocklist `*.txt` file, stripped
of `'\n'` then `'\r'` (`line.strip('\n').strip('\r')`). -/
def blocked_data (dir : List BlocklistFile) : List String :=
  (blocklist_files dir).flatMap (fun f =>
    f.lines.map (fun l => pyStripChar '\r' (pyStripChar '\n' l)))

/-- Lines 1196-1201: collect each candidate filename once per blocklist
line that contains it as a substring (`if data_file in blocked_file`),
then `sorted(list(set(...)))`. -/
def blocked_files_to_remove (candidates bd : List String) : List String :=
  pySortedSet ((pySort candidates).flatMap (fun df =>
    bd.filterMap (fun b => if pyInB df b then some df else none)))

/-- Outcome of the blocklist step: the candidates left in
`files_to_upload_dict` and the `rename` moves performed
(source path, destination path). -/
structure BlocklistResult where
  remaining : List String
  moved : List (String × String)

/-- Lines 1196-1224: remove every blocked candidate from the upload dict
(`files_to_upload_dict.pop`) and move it to
`{holding_dir}/blocked/{cur_date}/` in the holding directory. -/
def blocklistStep (holding curDate : String) (candidates : List String)
    (dir : List BlocklistFile) : BlocklistResult :=
  let btr := blocked_files_to_remove candidates (blocked_data dir)
  { remaining := candidates.filter (fun f => !(btr.contains f))
    moved := btr.map (fun f =>
      (holding ++ "/" ++ f, holding ++ "/blocked/" ++ curDate ++ "/" ++ f)) }

/-! ### Step 6: per-group manifest handling (`main`, lines 1275-1335) -/

/-- What the missing-manifest branch does for one group. -/
inductive GroupAction
  | createNewDir
  | fatalExit (msg : String)
deriving DecidableEq

/-- Lines 1321-1335: when `{ym}.hashes` does not exist on the mirror,
tolerate it (and create the group's data directory) only when
`gk.cur_month == int(ym[4:6]) and gk.cur_year == int(ym[0:4])`; otherwise
e-mail a notification and `sys.exit(msg)` with a message string.  The
short-circuit evaluation order of the Python conjunction is kept. -/
def missing_hashfile_action (curYear curMonth : Int) (ym : String) :
    Except String GroupAction :=
  match pyInt (pySlice ym 4 6) with
  | none => .error "ValueError"
  | some m =>
    if curMonth = m then
      match pyInt (pySlice ym 0 4) with
      | none => .error "ValueError"
      | some y =>
        if curYear = y then .ok .createNewDir
        else .ok (.fatalExit ("Hash file " ++ ym ++ " not found"))
    else .ok (.fatalExit ("Hash file " ++ ym ++ " not found"))

/-- The upload dict `files_to_upload_dict` restricted to what step 6 and
later steps read: filename key and the `'hash'` metadata value. -/
abbrev UploadDict := List (String × String)

/-- Python `dict.pop(k)`: error (`KeyError`) when the key is absent. -/
def dictPop (d : UploadDict) (k : String) : Except String UploadDict :=
  if d.any (fun kv => kv.1 = k) then .ok (d.filter (fun kv => kv.1 ≠ k))
  else .error "KeyError"

/-- Pop each key of a list in turn (the `for item in ...: pop(item)`
loops of `main`). -/
def popList (d : UploadDict) (ks : List String) : Except String UploadDict :=
  ks.foldlM dictPop d

/-- Python `line.split(":")[0]` (`splitCharList` is never empty). -/
def splitColonHead (line : String) : String :=
  (pySplit ':' line).headD ""

/-- Classification of one output line of `sha1sum -c` by lines 1299-1320:
the branch conditions `result.find(...) != -1` are substring tests. -/
inductive ShaClass
  | passOpenRead
  | nomatch (f : String)
  | okMatch (f : String)
  | passEmpty
  | unknown
deriving DecidableEq

/-- Lines 1299-1320, the dispatch on one `sha1sum -c` output line:
`"FAILED open or read"` is ignored, `"FAILED"` marks a hash mismatch,
`"OK"` marks an already-mirrored file, the empty line is ignored, and
anything else is only logged. -/
def classify_sha_line (line : String) : ShaClass :=
  let hashed_file := splitColonHead line
  if pyInB "FAILED open or read" line then .passOpenRead
  else if pyInB "FAILED" line then .nomatch hashed_file
  else if pyInB "OK" line then .okMatch hashed_file
  else if line = "" then .passEmpty
  else .unknown

/-- Effect of one `sha1sum -c` output line on the pair
(`files_to_upload_dict`, `non_matching_files`): a mismatch pops the file
and records it in the no-match list, a match pops the file (and deletes
the local copy, a side effect outside this state). -/
def apply_sha_line (st : UploadDict × List String) (line : String) :
    Except String (UploadDict × List String) :=
  match classify_sha_line line with
  | .passOpenRead => .ok st
  | .nomatch f => do
    let d ← dictPop st.1 f
    .ok (d, st.2 ++ [f])
  | .okMatch f => do
    let d ← dictPop st.1 f
    .ok (d, st.2)
  | .passEmpty => .ok st
  | .unknown => .ok st

/-- The whole comparison loop over the decoded `sha1sum -c` output. -/
def compare_hashes (st : UploadDict × List String) (lines : List String) :
    Except String (UploadDict × List String) :=
  lines.foldlM apply_sha_line st

/-- Modelled from the documented behaviour of the external tool
`sha1sum --check`, which the program invokes on the fetched
`{ym}.hashes` manifest from inside the holding directory: for each
manifest entry `(hash, filename)` it prints `filename: OK` when the local
file hashes to `hash`, `filename: FAILED` when it hashes to something
else, and `filename: FAILED open or read` when the file cannot be read.
`localHash` gives the actual hash of each holding-directory file, `none`
when the file is absent. -/
def sha1sum_c (manifest : List (String × String))
    (localHash : String → Option String) : List String :=
  manifest.map (fun e =>
    match localHash e.2 with
    | none => e.2 ++ ": FAILED open or read"
    | some h2 => if h2 = e.1 then e.2 ++ ": OK" else e.2 ++ ": FAILED")

/-- Environment of one group `ym` in the step-6 loop: whether
`{ym}.hashes` exists on the mirror, whether fetching it completed within
the timeout, and the decoded `sha1sum -c` output lines when it did. -/
structure GroupEnv where
  ym : String
  hashExists : Bool
  fetchCompleted : Bool
  shaLines : List String

/-- Lines 1275-1335, the body of the per-group loop.  `dict0` is
`files_to_upload_dict` as snapshotted into `yearmonth_dict` before the
loop (lines 1264-1269); `st` is the current
(`files_to_upload_dict`, `non_matching_files`) state.  A manifest that
exists but whose fetch times out makes the code pop every file of that
group and CONTINUE; a missing manifest for a non-current group raises a
fatal `sys.exit` (modelled as `.error`). -/
def step6_group (curYear curMonth : Int) (dict0 : UploadDict)
    (st : UploadDict × List String) (g : GroupEnv) :
    Except String (UploadDict × List String) :=
  if g.hashExists then
    if g.fetchCompleted then compare_hashes st g.shaLines
    else do
      let d ← popList st.1
        ((dict0.filter (fun kv => pySlice kv.1 0 6 = g.ym)).map Prod.fst)
      .ok (d, st.2)
  else
    match missing_hashfile_action curYear curMonth g.ym with
    | .error e => .error e
    | .ok .createNewDir => .ok st
    | .ok (.fatalExit msg) => .error ("sys.exit: " ++ msg)

/-- The whole step-6 loop over the groups present in the holding
directory, starting from `files_to_upload_dict` and an empty
`non_matching_files` list. -/
def step6 (curYear curMonth : Int) (dict0 : UploadDict)
    (groups : List GroupEnv) : Except String (UploadDict × List String) :=
  groups.foldlM (step6_group curYear curMonth dict0) (dict0, [])

/-! ### Steps 3 and 9: the nothing-to-upload early exits -/

/-- Lines 1139-1142: when the initial candidate list is empty,
`sys.exit("No files to upload. Exiting.")`. -/
def step3_no_files_check (files_to_upload : List String) : Option PyExitArg :=
  if files_to_upload.length = 0 then some (.strArg "No files to upload. Exiting.")
  else none

/-- Lines 1521-1526: when the eligible set is empty after classification,
`sys.exit("No files to upload")`. -/
def step9_no_files_check (files_to_upload : List String) : Option PyExitArg :=
  if files_to_upload.length = 0 then some (.strArg "No files to upload")
  else none

/-! ### Step 7: per-file container and record integrity tests
(`main`, lines 1345-1433) -/

/-- Everything the environment decides for one file in the step-7 loop:
the `bunzip2 -t` return code, the file size reported by `getsize`, the
`bzcat` return code, and the error message when the pydarnio dmap read
raises (`none` when it succeeds). -/
structure FileCheckEnv where
  bunzip2_rc : Int
  filesize : Nat
  bzcat_rc : Int
  dmapError : Option String
deriving DecidableEq

/-- What the loop body does with one file. -/
inductive CheckOutcome
  | dropped
  | failed (reason : String)
  | kept
deriving DecidableEq

/-- Python `' '.join(str(error).replace("\n", "").split())`: newline
removal followed by whitespace normalisation. -/
def pyNormalizeErr (e : String) : String :=
  " ".intercalate (((splitCharList '\n' e.data).flatten.foldr
      (fun c acc => if Char.isWhitespace c then
        match acc with
        | [] => []
        | _ => [] :: acc
      else match acc with
        | [] => [[c]]
        | w :: ws => (c :: w) :: ws) [] ).map String.mk)

/-- Lines 1348-1429, the decision for one file: return codes 1 and 3 of
`bunzip2 -t` mean the file was not found and it is silently dropped;
return code 2 records `"Failed BZ2 integrity test"`; a size of 14 or 0 or
below 14 records `"File contains no records (empty)"`; `bzcat` return
codes 1 and 3 again drop silently; the following (dead, it re-tests
`bunzip2_process.returncode`) branch records the BZ2 reason again; a
pydarnio exception records its whitespace-normalised message; otherwise
the file is kept. -/
def check_file (env : FileCheckEnv) : CheckOutcome :=
  if env.bunzip2_rc = 1 ∨ env.bunzip2_rc = 3 then .dropped
  else if env.bunzip2_rc = 2 then .failed "Failed BZ2 integrity test"
  else if env.filesize = 14 ∨ env.filesize = 0 then
    .failed "File contains no records (empty)"
  else if env.filesize < 14 then .failed "File contains no records (empty)"
  else if env.bzcat_rc = 1 ∨ env.bzcat_rc = 3 then .dropped
  else if env.bunzip2_rc = 2 then .failed "Failed BZ2 integrity test"
  else
    match env.dmapError with
    | some e => .failed (pyNormalizeErr e)
    | none => .kept

/-- The files still in `files_to_upload_dict` after the step-7 loop
(the loop walks the sorted key list and pops every file whose outcome is
not `kept`; expressed as a filter over the dict). -/
def step7_remaining (dict : UploadDict) (env : String → FileCheckEnv) :
    UploadDict :=
  dict.filter (fun kv => check_file (env kv.1) = .kept)

/-- The `failed_files` entries recorded by the step-7 loop:
`filename ↦ (hash, reason)`, flattened to triples in key order. -/
def step7_failed (dict : UploadDict) (env : String → FileCheckEnv) :
    List (String × String × String) :=
  dict.filterMap (fun kv =>
    match check_file (env kv.1) with
    | .failed r => some (kv.1, kv.2, r)
    | _ => none)

/-! ### Step 8: quarantine moves (`main`, lines 1455-1510) -/

/-- Lines 1458-1469: move each non-matching file from the holding
directory to `{holding_dir}/nomatch/{cur_date}/` (pairs of `rename`
source and destination). -/
def nomatch_step (holding curDate : String) (nonmatching : List String) :
    List (String × String) :=
  nonmatching.map (fun f =>
    (holding ++ "/" ++ f, holding ++ "/nomatch/" ++ curDate ++ "/" ++ f))

/-! ### Step 10: post-transfer verification (`main`, lines 1545-1590) -/

/-- A Python value as it can appear in the heterogeneous `mirror_list`:
a filename string or a directory listing. -/
inductive PyObj
  | strV (s : String)
  | listV (l : List String)
deriving DecidableEq

/-- Python `list.append(...)`: it takes exactly one argument; any other
arity raises `TypeError`. -/
def pyListAppend (l : List PyObj) (args : List PyObj) :
    Except String (List PyObj) :=
  match args with
  | [a] => .ok (l ++ [a])
  | _ => .error "TypeError: append() takes exactly one argument"

/-- Lines 1575-1578: build `mirror_list` by calling
`mirror_list.append(gk.get_file_list(ym[0:4], ym[4:6]), data_type)` for
every used data type and year-month.  `fileList year month` stands for
`gk.get_file_list` (the directory listing of
`{mirror_root}/{data_type}/{year}/{month}/` on the mirror). -/
def buildMirrorList (dts yms : List String)
    (fileList : String → String → List String) : Except String (List PyObj) :=
  (dts.flatMap (fun dt => yms.map (fun ym => (dt, ym)))).foldlM
    (fun acc p =>
      pyListAppend acc
        [.listV (fileList (pySlice p.2 0 4) (pySlice p.2 4 6)), .strV p.1])
    []

/-- Lines 1562-1590: from the list of files the transfer task reported as
succeeded, compute the year-months and used data types, build
`mirror_list`, and then for each succeeded file delete it locally and
record `(filename, hash)` for its group manifest exactly when
`filename in mirror_list` (Python `in` on the heterogeneous list);
otherwise only log a warning.  Returns the `(filename, hash)` pairs that
are deleted locally and appended to the per-group manifests. -/
def step10 (succeeded : List String) (typeOf hashOf : String → String)
    (fileList : String → String → List String) :
    Except String (List (String × String)) := do
  let yms := pySort (pySetList (succeeded.map (fun f => pySlice f 0 6)))
  let dts := pySetList ((pySort succeeded).map typeOf)
  let ml ← buildMirrorList dts yms fileList
  .ok ((pySort succeeded).filterMap (fun f =>
    if ml.contains (.strV f) then some (f, hashOf f) else none))

/-! ### `parse_data_filename` (`gatekeeper_globus.py` lines 94-136 and
`gatekeeper_class.py` lines 62-104, identical) -/

/-- The argument of `parse_data_filename`: the `isinstance(filename, str)`
test distinguishes strings from every other object. -/
inductive PyStrOrNot
  | pstr (s : String)
  | notStr
deriving DecidableEq

/-- The tuple returned by `parse_data_filename`: the 8-tuple form has
`channel = none`, the 9-tuple form carries the channel last. -/
structure ParsedName where
  year : Int
  month : Int
  day : Int
  hour : Int
  minute : Int
  second : Int
  radarAbbrev : String
  dataType : String
  channel : Option String
deriving DecidableEq

/-- `parse_data_filename`: non-strings return `None`; otherwise the name
is split on `'.'`, the five character-slice fields and `elements[2]` are
parsed with `int(...)` (a parse failure raises `ValueError`, a missing
element raises `IndexError` — both modelled as `.error`), and the element
count decides between the 8-tuple (6 elements), the 9-tuple (7 elements,
non-empty channel; an empty `elements[4]` is falsy and the channel is
dropped) and `None`. -/
def parse_data_filename (v : PyStrOrNot) : Except String (Option ParsedName) :=
  match v with
  | .notStr => .ok none
  | .pstr filename => do
    let elements := pySplit '.' filename
    let year ← pyIntE (pySlice filename 0 4)
    let month ← pyIntE (pySlice filename 4 6)
    let day ← pyIntE (pySlice filename 6 8)
    let hour ← pyIntE (pySlice filename 9 11)
    let minute ← pyIntE (pySlice filename 11 13)
    let e2 ← pyIndex elements 2
    let second ← pyIntE e2
    let radarAbbrev ← pyIndex elements 3
    if elements.length = 6 then do
      let dataType ← pyIndex elements 4
      .ok (some ⟨year, month, day, hour, minute, second, radarAbbrev, dataType, none⟩)
    else if elements.length = 7 then do
      let channel ← pyIndex elements 4
      let dataType ← pyIndex elements 5
      if channel ≠ "" then
        .ok (some ⟨year, month, day, hour, minute, second, radarAbbrev, dataType,
          some channel⟩)
      else
        .ok (some ⟨year, month, day, hour, minute, second, radarAbbrev, dataType,
          none⟩)
    else
      .ok none

/-- A well-formed Python dict state: its keys are pairwise distinct. -/
def keysNodup (d : UploadDict) : Prop :=
  (d.map Prod.fst).Nodup

/-- Decidable equality for `Except`, so that concrete runs of the
embedded functions can be checked by evaluation. -/
instance exceptDecEq {ε α : Type} [DecidableEq ε] [DecidableEq α] :
    DecidableEq (Except ε α) := fun x y =>
  match x, y with
  | .error e, .error e' =>
    if h : e = e' then isTrue (by rw [h])
    else isFalse (by intro hh; cases hh; exact h rfl)
  | .ok a, .ok b =>
    if h : a = b then isTrue (by rw [h])
    else isFalse (by intro hh; cases hh; exact h rfl)
  | .error _, .ok _ => isFalse (by intro hh; cases hh)
  | .ok _, .error _ => isFalse (by intro hh; cases hh)

/-! ## Helper lemmas -/

theorem mem_insertSorted {x a : String} {l : List String} :
    x ∈ insertSorted a l ↔ x = a ∨ x ∈ l := by
  induction l with
  | nil => simp [insertSorted]
  | cons b bs ih =>
    by_cases h : strLe a b = true
    · simp [insertSorted, h]
    · simp only [insertSorted, if_neg h, List.mem_cons, ih]
      tauto

theorem mem_pySort {x : String} {l : List String} :
    x ∈ pySort l ↔ x ∈ l := by
  induction l with
  | nil => simp [pySort]
  | cons a as ih =>
    simp only [pySort, List.foldr_cons] at *
    rw [mem_insertSorted, ih]
    simp

theorem mem_pySetList {x : String} {l : List String} :
    x ∈ pySetList l ↔ x ∈ l := by
  induction l with
  | nil => simp [pySetList]
  | cons a as ih =>
    by_cases h : as.contains a
    · have ha : a ∈ as := List.elem_iff.mp h
      simp only [pySetList, if_pos h, ih, List.mem_cons]
      constructor
      · intro hx; exact Or.inr hx
      · intro hx; rcases hx with rfl | hx
        · exact ha
        · exact hx
    · simp only [pySetList, if_neg h, List.mem_cons, ih]

theorem mem_pySortedSet {x : String} {l : List String} :
    x ∈ pySortedSet l ↔ x ∈ l := by
  rw [pySortedSet, mem_pySort, mem_pySetList]

theorem containsSub_append_right {n l2 : List Char}
    (h : containsSub n l2 = true) (l1 : List Char) :
    containsSub n (l1 ++ l2) = true := by
  induction l1 with
  | nil => simpa using h
  | cons a as ih =>
    simp only [List.cons_append, containsSub, Bool.or_eq_true]
    exact Or.inr ih

theorem pyInB_append_right {n t : String} (h : pyInB n t = true)
    (s : String) : pyInB n (s ++ t) = true := by
  unfold pyInB at *
  rw [String.data_append]
  exact containsSub_append_right h s.data

theorem eq_of_keysNodup {d : UploadDict} (hn : keysNodup d)
    {kv kv' : String × String} (h : kv ∈ d) (h' : kv' ∈ d)
    (hk : kv.1 = kv'.1) : kv = kv' := by
  induction d with
  | nil => cases h
  | cons e es ih =>
    have hne : e.1 ∉ es.map Prod.fst := (List.nodup_cons.mp hn).1
    have hn' : keysNodup es := (List.nodup_cons.mp hn).2
    rcases List.mem_cons.mp h with rfl | h1
    · rcases List.mem_cons.mp h' with rfl | h2
      · rfl
      · exact absurd (by rw [hk]; exact List.mem_map_of_mem Prod.fst h2) hne
    · rcases List.mem_cons.mp h' with rfl | h2
      · exact absurd (by rw [← hk]; exact List.mem_map_of_mem Prod.fst h1) hne
      · exact ih hn' h1 h2

theorem dictPop_ok_of_mem {d : UploadDict} {k : String}
    (h : k ∈ d.map Prod.fst) :
    dictPop d k = .ok (d.filter (fun kv => kv.1 ≠ k)) := by
  unfold dictPop
  have : d.any (fun kv => kv.1 = k) = true := by
    rcases List.mem_map.mp h with ⟨kv, hkv, rfl⟩
    exact List.any_eq_true.mpr ⟨kv, hkv, by simp⟩
  rw [if_pos this]

theorem dictPop_ok_spec {d d' : UploadDict} {k : String}
    (h : dictPop d k = .ok d') :
    k ∉ d'.map Prod.fst ∧ ∀ kv ∈ d', kv ∈ d := by
  unfold dictPop at h
  by_cases hc : d.any (fun kv => kv.1 = k) = true
  · rw [if_pos hc] at h
    cases h
    constructor
    · intro hmem
      rcases List.mem_map.mp hmem with ⟨kv, hkv, hfst⟩
      have h2 := (List.mem_filter.mp hkv).2
      rw [hfst] at h2
      simp at h2
    · intro kv hkv
      exact (List.mem_filter.mp hkv).1
  · rw [if_neg hc] at h
    cases h

theorem apply_sha_line_mono {st st' : UploadDict × List String}
    {line : String} (h : apply_sha_line st line = .ok st') :
    (∀ kv ∈ st'.1, kv ∈ st.1) ∧ (∀ x ∈ st.2, x ∈ st'.2) := by
  rcases hc : classify_sha_line line with _ | f | f | _ | _ <;>
    simp only [apply_sha_line, hc] at h
  · cases h; exact ⟨fun kv hkv => hkv, fun x hx => hx⟩
  · rcases hp : dictPop st.1 f with e | d <;> rw [hp] at h
    · have h2 : (Except.error e : Except String (UploadDict × List String)) = .ok st' := h
      cases h2
    · have h2 : Except.ok (d, st.2 ++ [f]) = Except.ok st' := h
      cases h2
      refine ⟨fun kv hkv => (dictPop_ok_spec hp).2 kv hkv, fun x hx => ?_⟩
      exact List.mem_append_left _ hx
  · rcases hp : dictPop st.1 f with e | d <;> rw [hp] at h
    · have h2 : (Except.error e : Except String (UploadDict × List String)) = .ok st' := h
      cases h2
    · have h2 : Except.ok (d, st.2) = Except.ok st' := h
      cases h2
      exact ⟨fun kv hkv => (dictPop_ok_spec hp).2 kv hkv, fun x hx => hx⟩
  · cases h; exact ⟨fun kv hkv => hkv, fun x hx => hx⟩
  · cases h; exact ⟨fun kv hkv => hkv, fun x hx => hx⟩

theorem compare_hashes_mono {lines : List String}
    {st st' : UploadDict × List String}
    (h : compare_hashes st lines = .ok st') :
    (∀ kv ∈ st'.1, kv ∈ st.1) ∧ (∀ x ∈ st.2, x ∈ st'.2) := by
  induction lines generalizing st with
  | nil =>
    have h2 : Except.ok st = Except.ok st' := h
    cases h2
    exact ⟨fun kv hkv => hkv, fun x hx => hx⟩
  | cons l ls ih =>
    unfold compare_hashes at h ih
    rw [List.foldlM_cons] at h
    rcases ha : apply_sha_line st l with e | st1 <;> rw [ha] at h
    · have h2 : (Except.error e : Except String (UploadDict × List String)) = .ok st' := h
      cases h2
    · have h2 : List.foldlM apply_sha_line st1 ls = .ok st' := h
      have h1 := apply_sha_line_mono ha
      have h3 := ih h2
      exact ⟨fun kv hkv => h1.1 kv (h3.1 kv hkv), fun x hx => h3.2 x (h1.2 x hx)⟩

theorem compare_hashes_of_nomatch {lines : List String}
    {st st' : UploadDict × List String} {line f : String}
    (h : compare_hashes st lines = .ok st') (hmem : line ∈ lines)
    (hc : classify_sha_line line = .nomatch f) :
    f ∉ st'.1.map Prod.fst ∧ f ∈ st'.2 := by
  induction lines generalizing st with
  | nil => cases hmem
  | cons l ls ih =>
    unfold compare_hashes at h ih
    rw [List.foldlM_cons] at h
    rcases ha : apply_sha_line st l with e | st1 <;> rw [ha] at h
    · have h2 : (Except.error e : Except String (UploadDict × List String)) = .ok st' := h
      cases h2
    · have h2 : List.foldlM apply_sha_line st1 ls = .ok st' := h
      rcases List.mem_cons.mp hmem with rfl | hmem'
      · have ha' := ha
        simp only [apply_sha_line, hc] at ha'
        rcases hp : dictPop st.1 f with e | d <;> rw [hp] at ha'
        · have h3 : (Except.error e : Except String (UploadDict × List String)) = .ok st1 := ha'
          cases h3
        · have h3 : Except.ok (d, st.2 ++ [f]) = Except.ok st1 := ha'
          cases h3
          have hpop := dictPop_ok_spec hp
          have hmono := compare_hashes_mono h2
          constructor
          · intro hbad
            rcases List.mem_map.mp hbad with ⟨kv, hkv, hfst⟩
            exact hpop.1 (hfst ▸ List.mem_map_of_mem Prod.fst (hmono.1 kv hkv))
          · exact hmono.2 f (List.mem_append_right _ (List.mem_singleton.mpr rfl))
      · exact ih h2 hmem'

theorem popList_ok {ks : List String} :
    ∀ {d : UploadDict}, ks.Nodup → (∀ k ∈ ks, k ∈ d.map Prod.fst) →
    popList d ks = .ok (d.filter (fun kv => decide (kv.1 ∉ ks))) := by
  induction ks with
  | nil =>
    intro d _ _
    have : d.filter (fun kv => decide (kv.1 ∉ ([] : List String))) = d := by
      simp
    rw [this]
    rfl
  | cons k ks ih =>
    intro d hnd hmem
    unfold popList at ih ⊢
    rw [List.foldlM_cons, dictPop_ok_of_mem (hmem k (List.mem_cons_self k ks))]
    have hnd' : ks.Nodup := (List.nodup_cons.mp hnd).2
    have hkn : k ∉ ks := (List.nodup_cons.mp hnd).1
    have hmem' : ∀ k' ∈ ks, k' ∈ (d.filter (fun kv => kv.1 ≠ k)).map Prod.fst := by
      intro k' hk'
      rcases List.mem_map.mp (hmem k' (List.mem_cons_of_mem k hk')) with ⟨kv, hkv, rfl⟩
      refine List.mem_map_of_mem Prod.fst (List.mem_filter.mpr ⟨hkv, ?_⟩)
      have hne : kv.1 ≠ k := fun hEq => hkn (hEq ▸ hk')
      exact decide_eq_true hne
    have hbind : (Except.ok (d.filter (fun kv => kv.1 ≠ k)) >>=
        fun d2 => List.foldlM dictPop d2 ks) =
        List.foldlM dictPop (d.filter (fun kv => kv.1 ≠ k)) ks := rfl
    rw [hbind, ih hnd' hmem', List.filter_filter]
    have : (d.filter (fun a => decide (a.1 ∉ ks) && decide (a.1 ≠ k))) =
        d.filter (fun kv => decide (kv.1 ∉ k :: ks)) := by
      apply List.filter_congr
      intro kv _
      by_cases h1 : kv.1 = k <;> by_cases h2 : kv.1 ∈ ks <;>
        simp [h1, h2, List.mem_cons]
    rw [this]


theorem except_bind_ok {α β : Type} (a : α) (k : α → Except String β) :
    (Except.ok a >>= k) = k a := rfl

theorem except_bind_err {α β : Type} (e : String) (k : α → Except String β) :
    ((Except.error e : Except String α) >>= k) = .error e := rfl

/-! ## Claim C2 -/

/-- Claim C2: for a group key `ym` whose month and year slices parse as
integers, the missing-manifest branch creates the group's data directory
and continues exactly when the group equals the current calendar year and
month; any other group produces the fatal notification-and-exit path,
whose `sys.exit` argument is a message string and therefore yields a
non-zero (1) process exit status. -/
theorem claim_C2_missing_manifest (curYear curMonth y m : Int) (ym : String)
    (hy : pyInt (pySlice ym 0 4) = some y) (hm : pyInt (pySlice ym 4 6) = some m) :
    (missing_hashfile_action curYear curMonth ym = .ok .createNewDir ↔
      (m = curMonth ∧ y = curYear)) ∧
    (¬(m = curMonth ∧ y = curYear) →
      missing_hashfile_action curYear curMonth ym =
        .ok (.fatalExit ("Hash file " ++ ym ++ " not found")) ∧
      sysExitCode (.strArg ("Hash file " ++ ym ++ " not found")) = 1) := by
  simp only [missing_hashfile_action, hm, hy]
  by_cases h1 : curMonth = m
  · by_cases h2 : curYear = y
    · subst h1; subst h2
      simp [sysExitCode]
    · have h2' : ¬(y = curYear) := fun hh => h2 hh.symm
      subst h1
      simp [h2, h2', sysExitCode]
  · have h1' : ¬(m = curMonth) := fun hh => h1 hh.symm
    simp [h1, h1', sysExitCode]

/-- Witness for C2: group `202405` is tolerated when the current date is
May 2024 and fatal when it is April 2024. -/
theorem claim_C2_missing_manifest_witness :
    pyInt (pySlice "202405" 0 4) = some 2024 ∧
    pyInt (pySlice "202405" 4 6) = some 5 ∧
    missing_hashfile_action 2024 5 "202405" = .ok .createNewDir ∧
    missing_hashfile_action 2024 4 "202405" =
      .ok (.fatalExit ("Hash file " ++ "202405" ++ " not found")) := by
  refine ⟨by decide, by decide, ?_, ?_⟩
  · exact (claim_C2_missing_manifest 2024 5 2024 5 "202405" (by decide)
      (by decide)).1.mpr ⟨rfl, rfl⟩
  · exact ((claim_C2_missing_manifest 2024 4 2024 5 "202405" (by decide)
      (by decide)).2 (by intro hh; exact absurd hh.1 (by decide))).1

/-! ## Claim C4 -/

/-- Counterexample to claim C4: the nothing-to-transfer early exit calls
`sys.exit` with the message string `"No files to upload. Exiting."`,
which yields process exit status 1, not 0. -/
theorem claim_C4_counterexample :
    step3_no_files_check [] = some (.strArg "No files to upload. Exiting.") ∧
    sysExitCode (.strArg "No files to upload. Exiting.") = 1 :=
  ⟨rfl, rfl⟩

/-- Claim C4 as amended: a run that finds nothing to transfer (no
candidate files in step 3, or an empty eligible set in step 9) terminates
early with process exit status 1 — the same non-zero status as the fatal
paths, since every `sys.exit` in the script is given a message string. -/
theorem claim_C4_amended (files : List String) (h : files.length = 0) :
    (step3_no_files_check files = some (.strArg "No files to upload. Exiting.") ∧
      sysExitCode (.strArg "No files to upload. Exiting.") = 1) ∧
    (step9_no_files_check files = some (.strArg "No files to upload") ∧
      sysExitCode (.strArg "No files to upload") = 1) ∧
    (∀ s, sysExitCode (.strArg s) = 1) := by
  refine ⟨⟨?_, rfl⟩, ⟨?_, rfl⟩, fun s => rfl⟩ <;>
    simp [step3_no_files_check, step9_no_files_check, h]

/-- Witness for the amended C4 at the empty candidate list. -/
theorem claim_C4_amended_witness :
    ([] : List String).length = 0 ∧
    step3_no_files_check [] = some (.strArg "No files to upload. Exiting.") :=
  ⟨rfl, ((claim_C4_amended [] rfl).1).1⟩

/-! ## Claim C5 -/

/-- Counterexample to claim C5: the recorded reason for a corrupt
container (`bunzip2 -t` return code 2) is `"Failed BZ2 integrity test"`,
not `"Failed container integrity test"` as the claim states. -/
theorem claim_C5_counterexample :
    check_file ⟨2, 100, 0, none⟩ = .failed "Failed BZ2 integrity test" ∧
    "Failed BZ2 integrity test" ≠ "Failed container integrity test" :=
  ⟨by decide, by decide⟩

/-- Claim C5 as amended: in the step-7 loop, a "file missing" exit
condition of the container test (`bunzip2 -t` return code 1 or 3) removes
the file from the upload set without recording any failure, while a
"corrupt" exit condition (return code 2) removes it and records a failure
whose reason string is `"Failed BZ2 integrity test"`. -/
theorem claim_C5_amended (dict : UploadDict) (env : String → FileCheckEnv)
    (f h : String) (hmem : (f, h) ∈ dict) :
    (((env f).bunzip2_rc = 1 ∨ (env f).bunzip2_rc = 3) →
      check_file (env f) = .dropped ∧
      f ∉ (step7_remaining dict env).map Prod.fst ∧
      (∀ r ∈ step7_failed dict env, r.1 ≠ f)) ∧
    ((env f).bunzip2_rc = 2 →
      check_file (env f) = .failed "Failed BZ2 integrity test" ∧
      f ∉ (step7_remaining dict env).map Prod.fst ∧
      (f, h, "Failed BZ2 integrity test") ∈ step7_failed dict env) := by
  constructor
  · intro hrc
    have hcf : check_file (env f) = .dropped := by
      unfold check_file
      rw [if_pos hrc]
    refine ⟨hcf, ?_, ?_⟩
    · intro hbad
      rcases List.mem_map.mp hbad with ⟨kv, hkv, hfst⟩
      have hkept := of_decide_eq_true ((List.mem_filter.mp hkv).2)
      rw [hfst] at hkept
      rw [hcf] at hkept
      cases hkept
    · intro r hr heq
      rcases List.mem_filterMap.mp hr with ⟨kv, hkv, hsome⟩
      rcases hck : check_file (env kv.1) with _ | rr | _ <;> rw [hck] at hsome
      · cases hsome
      · cases hsome
        rw [show kv.1 = f from heq] at hck
        rw [hcf] at hck
        cases hck
      · cases hsome
  · intro hrc
    have h13 : ¬((env f).bunzip2_rc = 1 ∨ (env f).bunzip2_rc = 3) := by
      rw [hrc]; decide
    have hcf : check_file (env f) = .failed "Failed BZ2 integrity test" := by
      unfold check_file
      rw [if_neg h13, if_pos hrc]
    refine ⟨hcf, ?_, ?_⟩
    · intro hbad
      rcases List.mem_map.mp hbad with ⟨kv, hkv, hfst⟩
      have hkept := of_decide_eq_true ((List.mem_filter.mp hkv).2)
      rw [hfst] at hkept
      rw [hcf] at hkept
      cases hkept
    · refine List.mem_filterMap.mpr ⟨(f, h), hmem, ?_⟩
      rw [show ((f, h) : String × String).1 = f from rfl, hcf]

/-- Witness for the amended C5: one file dropped silently (return code 1)
and one file recorded with the BZ2 reason (return code 2). -/
theorem claim_C5_amended_witness :
    (("b", "h2") ∈ ([("a", "h1"), ("b", "h2")] : UploadDict)) ∧
    check_file ((fun s => if s = "a" then (⟨1, 100, 0, none⟩ : FileCheckEnv)
      else ⟨2, 100, 0, none⟩) "a") = .dropped ∧
    ("b", "h2", "Failed BZ2 integrity test") ∈
      step7_failed [("a", "h1"), ("b", "h2")]
        (fun s => if s = "a" then ⟨1, 100, 0, none⟩ else ⟨2, 100, 0, none⟩) := by
  refine ⟨by decide, ?_, ?_⟩
  · exact ((claim_C5_amended [("a", "h1"), ("b", "h2")]
      (fun s => if s = "a" then ⟨1, 100, 0, none⟩ else ⟨2, 100, 0, none⟩)
      "a" "h1" (by decide)).1 (by decide)).1
  · exact ((claim_C5_amended [("a", "h1"), ("b", "h2")]
      (fun s => if s = "a" then ⟨1, 100, 0, none⟩ else ⟨2, 100, 0, none⟩)
      "b" "h2" (by decide)).2 (by decide)).2.2

/-! ## Claim C6 -/

/-- Claim C6: when the ledger has exactly one line containing both the
new record's hash and its filename as substrings, `update_failed` leaves
the ledger text unchanged — still exactly one line for that pair — no
matter what the new record's reason text is. -/
theorem claim_C6_ledger_idempotent (ledger : List String) (fn hs rs : String)
    (h1 : ledger.countP (fun line => pyInB hs line && pyInB fn line) = 1) :
    ∃ out, update_failed ledger [⟨fn, hs, rs⟩] = some out ∧ out = ledger ∧
      out.countP (fun line => pyInB hs line && pyInB fn line) = 1 := by
  have hpos : 0 < ledger.countP (fun line => pyInB hs line && pyInB fn line) := by
    rw [h1]; exact Nat.one_pos
  rcases List.countP_pos_iff.mp hpos with ⟨line, hline, hp⟩
  have hany : ledger.any (fun line => pyInB hs line && pyInB fn line) = true :=
    List.any_eq_true.mpr ⟨line, hline, hp⟩
  have hne : ledger.isEmpty = false := by
    cases ledger
    · cases hline
    · rfl
  refine ⟨ledger, ?_, rfl, h1⟩
  have hany2 : ledger.any (fun line =>
      pyInB (FailRecord.mk fn hs rs).hash line &&
      pyInB (FailRecord.mk fn hs rs).filename line) = true := hany
  unfold update_failed
  rw [hne]
  simp only [Bool.false_eq_true, if_false, List.foldl_cons, List.foldl_nil]
  rw [if_pos hany2]
  simp

/-- Witness for C6: re-recording an already-present (hash, filename) pair
with a fresh reason leaves the one-line ledger unchanged. -/
theorem claim_C6_ledger_idempotent_witness :
    (["aaa  f1.rawacf.bz2 | Failed BZ2 integrity test"].countP
      (fun line => pyInB "aaa" line && pyInB "f1.rawacf.bz2" line) = 1) ∧
    update_failed ["aaa  f1.rawacf.bz2 | Failed BZ2 integrity test"]
      [⟨"f1.rawacf.bz2", "aaa", "a brand new reason"⟩] =
      some ["aaa  f1.rawacf.bz2 | Failed BZ2 integrity test"] := by
  refine ⟨by decide, ?_⟩
  rcases claim_C6_ledger_idempotent
      ["aaa  f1.rawacf.bz2 | Failed BZ2 integrity test"]
      "f1.rawacf.bz2" "aaa" "a brand new reason" (by decide) with
    ⟨out, hout, heq, _⟩
  rw [heq] at hout
  exact hout

/-! ## Claim C7 -/

/-- Counterexample to claim C7: a record with the same filename and the
same hash as an existing ledger line but a NEW reason is skipped — no
line is appended, contrary to the claim's second part. -/
theorem claim_C7_counterexample :
    update_failed ["aaa  f1.rawacf.bz2 | first reason"]
      [⟨"f1.rawacf.bz2", "aaa", "second reason"⟩] =
      some ["aaa  f1.rawacf.bz2 | first reason"] := by decide

/-- Claim C7 as amended: a new record is appended as one new ledger line
exactly when NO existing line contains both its hash and its filename as
substrings (so a same-filename record with a different hash is appended,
provided the new hash does not occur in a line with the filename);
a record whose hash and filename both occur in some line is skipped, its
new reason text notwithstanding. -/
theorem claim_C7_amended (ledger : List String) (r : FailRecord)
    (hne : ledger ≠ []) :
    update_failed ledger [r] =
      some (if ledger.any (fun line => pyInB r.hash line && pyInB r.filename line)
        then ledger else ledger ++ [recordLine r]) := by
  have hemp : ledger.isEmpty = false := by
    cases ledger
    · exact absurd rfl hne
    · rfl
  unfold update_failed
  rw [hemp]
  simp only [Bool.false_eq_true, if_false, List.foldl_cons, List.foldl_nil]
  by_cases h : ledger.any (fun line => pyInB r.hash line && pyInB r.filename line) = true
  · rw [if_pos h, if_pos h]
    simp
  · rw [if_neg h, if_neg h]
    simp

/-- Witness for the amended C7: the same filename with a different hash
is appended as a new line. -/
theorem claim_C7_amended_witness :
    update_failed ["aaa  f1.rawacf.bz2 | first reason"]
      [⟨"f1.rawacf.bz2", "bbb", "second reason"⟩] =
      some (if (["aaa  f1.rawacf.bz2 | first reason"] : List String).any
          (fun line => pyInB (FailRecord.mk "f1.rawacf.bz2" "bbb" "second reason").hash line &&
            pyInB (FailRecord.mk "f1.rawacf.bz2" "bbb" "second reason").filename line)
        then ["aaa  f1.rawacf.bz2 | first reason"]
        else ["aaa  f1.rawacf.bz2 | first reason"] ++
          [recordLine ⟨"f1.rawacf.bz2", "bbb", "second reason"⟩]) ∧
    (["aaa  f1.rawacf.bz2 | first reason"] : List String) ≠ [] :=
  ⟨claim_C7_amended _ _ (by decide), by decide⟩

/-! ## Claim C1 -/

/-- Claim C1 evaluated at a failing input: with one reported-transferred
file, step 10 raises `TypeError` at
`mirror_list.append(gk.get_file_list(ym[0:4], ym[4:6]), data_type)`
(Python `list.append` takes exactly one argument) before any independent
existence check, local deletion or manifest append can happen. -/
theorem claim_C1_step10_type_error :
    step10 ["20240101.0000.00.sas.rawacf.bz2"] (fun _ => "raw") (fun _ => "aaa")
      (fun _ _ => []) = .error "TypeError: append() takes exactly one argument" := by
  decide

/-! ## Claim C10 -/

/-- Counterexample to claim C10: `"20200804.2200.01"` splits into 3
elements (not 6 or 7) and all its date/time fields parse as integers, so
the claim requires `None`; the code instead raises `IndexError` at
`elements[3]`. -/
theorem claim_C10_counterexample :
    parse_data_filename (.pstr "20200804.2200.01") = .error "IndexError" ∧
    (pySplit '.' "20200804.2200.01").length = 3 ∧
    pyInt (pySlice "20200804.2200.01" 0 4) = some 2020 ∧
    pyInt (pySlice "20200804.2200.01" 4 6) = some 8 ∧
    pyInt (pySlice "20200804.2200.01" 6 8) = some 4 ∧
    pyInt (pySlice "20200804.2200.01" 9 11) = some 22 ∧
    pyInt (pySlice "20200804.2200.01" 11 13) = some 0 ∧
    pyInt "01" = some 1 := by
  refine ⟨by decide, by decide, by decide, by decide, by decide, by decide,
    by decide, by decide⟩

/-! ## Claim C3 -/

/-- Counterexample to claim C3: a PAST group (`202401`, current date May
2024) whose manifest exists but whose fetch times out does NOT abort the
run — its files are removed from the upload set and the loop continues
with the remaining groups (here the `202405` group is still processed:
its file is removed by an `OK` comparison), finishing with `.ok`. -/
theorem claim_C3_counterexample :
    step6 2024 5
      [("20240101.0000.00.sas.rawacf.bz2", "aaa"),
       ("20240501.0000.00.sas.rawacf.bz2", "bbb")]
      [⟨"202401", true, false, []⟩,
       ⟨"202405", true, true, ["20240501.0000.00.sas.rawacf.bz2: OK"]⟩] =
      .ok ([], []) := by
  decide

/-- Claim C3 as amended: when a group's manifest exists but its fetch
does not complete within the timeout, the run is NOT aborted — whether or
not the group is a past month.  The group's files are popped from the
upload dict and the step-6 loop continues with the remaining groups from
that reduced state. -/
theorem claim_C3_amended (curYear curMonth : Int) (dict0 : UploadDict)
    (g : GroupEnv) (rest : List GroupEnv) (hnd : keysNodup dict0)
    (hex : g.hashExists = true) (htc : g.fetchCompleted = false) :
    step6 curYear curMonth dict0 (g :: rest) =
      List.foldlM (step6_group curYear curMonth dict0)
        (dict0.filter (fun kv => decide (pySlice kv.1 0 6 ≠ g.ym)), []) rest := by
  unfold step6
  rw [List.foldlM_cons]
  have hks : ((dict0.filter (fun kv => pySlice kv.1 0 6 = g.ym)).map Prod.fst).Nodup := by
    exact hnd.sublist (List.Sublist.map Prod.fst (List.filter_sublist dict0))
  have hksmem : ∀ k ∈ (dict0.filter (fun kv => pySlice kv.1 0 6 = g.ym)).map Prod.fst,
      k ∈ dict0.map Prod.fst := by
    intro k hk
    rcases List.mem_map.mp hk with ⟨kv, hkv, rfl⟩
    exact List.mem_map_of_mem Prod.fst (List.mem_filter.mp hkv).1
  have hstep : step6_group curYear curMonth dict0 (dict0, []) g =
      .ok (dict0.filter (fun kv => decide (pySlice kv.1 0 6 ≠ g.ym)), []) := by
    unfold step6_group
    rw [hex, htc]
    simp only [if_true, Bool.false_eq_true, if_false]
    have hpop := popList_ok (d := dict0) hks hksmem
    rw [hpop]
    have hfeq : dict0.filter (fun kv => decide
        (kv.1 ∉ (dict0.filter (fun kv => pySlice kv.1 0 6 = g.ym)).map Prod.fst)) =
        dict0.filter (fun kv => decide (pySlice kv.1 0 6 ≠ g.ym)) := by
      apply List.filter_congr
      intro kv hkv
      by_cases hka : pySlice kv.1 0 6 = g.ym
      · have hin : kv.1 ∈ (dict0.filter (fun kv => pySlice kv.1 0 6 = g.ym)).map Prod.fst :=
          List.mem_map_of_mem Prod.fst (List.mem_filter.mpr ⟨hkv, decide_eq_true hka⟩)
        simp [hin, hka]
      · have hnin : kv.1 ∉ (dict0.filter (fun kv => pySlice kv.1 0 6 = g.ym)).map Prod.fst := by
          intro hin
          rcases List.mem_map.mp hin with ⟨kv2, hkv2, hfst⟩
          have hkv2d := List.mem_filter.mp hkv2
          have heq : kv2 = kv := eq_of_keysNodup hnd hkv2d.1 hkv hfst
          rw [heq] at hkv2d
          exact hka (of_decide_eq_true hkv2d.2)
        simp [hnin, hka]
    rw [hfeq]
    rfl
  rw [hstep]
  rfl

/-- Witness for the amended C3 at a concrete past group: the timed-out
group `202401` is skipped (file removed) and the empty remainder of the
loop completes with `.ok`. -/
theorem claim_C3_amended_witness :
    keysNodup [("20240101.0000.00.sas.rawacf.bz2", "aaa"),
               ("20240501.0000.00.sas.rawacf.bz2", "bbb")] ∧
    step6 2024 5
      [("20240101.0000.00.sas.rawacf.bz2", "aaa"),
       ("20240501.0000.00.sas.rawacf.bz2", "bbb")]
      [⟨"202401", true, false, []⟩] =
      .ok ([("20240501.0000.00.sas.rawacf.bz2", "bbb")], []) := by
  constructor
  · unfold keysNodup
    decide
  · have h := claim_C3_amended 2024 5
      [("20240101.0000.00.sas.rawacf.bz2", "aaa"),
       ("20240501.0000.00.sas.rawacf.bz2", "bbb")]
      ⟨"202401", true, false, []⟩ [] (by unfold keysNodup; decide) rfl rfl
    rw [h]
    decide

/-! ## Claim C8 -/

theorem mem_blocked_data {dir : List BlocklistFile} {b : String} :
    b ∈ blocked_data dir ↔ ∃ bf ∈ dir, fnmatch bf.name "*.txt" = true ∧
      ∃ l ∈ bf.lines, b = pyStripChar '\r' (pyStripChar '\n' l) := by
  unfold blocked_data blocklist_files
  constructor
  · intro h
    rcases List.mem_flatMap.mp h with ⟨bf, hbf, hb⟩
    rcases List.mem_map.mp hb with ⟨l, hl, rfl⟩
    have h2 := List.mem_filter.mp hbf
    exact ⟨bf, h2.1, h2.2, l, hl, rfl⟩
  · rintro ⟨bf, hbf, htxt, l, hl, rfl⟩
    exact List.mem_flatMap.mpr ⟨bf, List.mem_filter.mpr ⟨hbf, htxt⟩,
      List.mem_map_of_mem _ hl⟩

theorem mem_blocked_files_to_remove {candidates bd : List String} {f : String} :
    f ∈ blocked_files_to_remove candidates bd ↔
      f ∈ candidates ∧ ∃ b ∈ bd, pyInB f b = true := by
  unfold blocked_files_to_remove
  rw [mem_pySortedSet]
  constructor
  · intro h
    rcases List.mem_flatMap.mp h with ⟨df, hdf, hmem⟩
    rcases List.mem_filterMap.mp hmem with ⟨b, hb, hsome⟩
    by_cases hin : pyInB df b = true
    · rw [if_pos hin] at hsome
      cases hsome
      exact ⟨mem_pySort.mp hdf, b, hb, hin⟩
    · rw [if_neg hin] at hsome
      cases hsome
  · rintro ⟨hc, b, hb, hin⟩
    exact List.mem_flatMap.mpr ⟨f, mem_pySort.mpr hc,
      List.mem_filterMap.mpr ⟨b, hb, by rw [if_pos hin]⟩⟩

/-- Claim C8: a candidate is removed by the blocklist step exactly when
its filename is a substring of some (stripped) line of some `*.txt` file
of the fetched blocklist directory; every such file is moved to the
holding directory's `blocked/<cur_date>/` subdirectory, and every move
performed by the step is of a candidate that matched a blocklist line —
no other candidate is touched. -/
theorem claim_C8_blocklist (holding curDate : String) (candidates : List String)
    (dir : List BlocklistFile) (f : String) (hf : f ∈ candidates) :
    (f ∈ (blocklistStep holding curDate candidates dir).remaining ↔
      ¬ ∃ bf ∈ dir, fnmatch bf.name "*.txt" = true ∧
        ∃ l ∈ bf.lines, pyInB f (pyStripChar '\r' (pyStripChar '\n' l)) = true) ∧
    ((∃ bf ∈ dir, fnmatch bf.name "*.txt" = true ∧
        ∃ l ∈ bf.lines, pyInB f (pyStripChar '\r' (pyStripChar '\n' l)) = true) →
      (holding ++ "/" ++ f, holding ++ "/blocked/" ++ curDate ++ "/" ++ f) ∈
        (blocklistStep holding curDate candidates dir).moved) ∧
    (∀ p ∈ (blocklistStep holding curDate candidates dir).moved,
      p.1 = holding ++ "/" ++ f →
      ∃ b ∈ blocked_data dir, pyInB f b = true) := by
  have hbex : (∃ b ∈ blocked_data dir, pyInB f b = true) ↔
      ∃ bf ∈ dir, fnmatch bf.name "*.txt" = true ∧
        ∃ l ∈ bf.lines, pyInB f (pyStripChar '\r' (pyStripChar '\n' l)) = true := by
    constructor
    · rintro ⟨b, hb, hin⟩
      rcases mem_blocked_data.mp hb with ⟨bf, hbf, htxt, l, hl, rfl⟩
      exact ⟨bf, hbf, htxt, l, hl, hin⟩
    · rintro ⟨bf, hbf, htxt, l, hl, hin⟩
      exact ⟨_, mem_blocked_data.mpr ⟨bf, hbf, htxt, l, hl, rfl⟩, hin⟩
  have hbtr : f ∈ blocked_files_to_remove candidates (blocked_data dir) ↔
      ∃ b ∈ blocked_data dir, pyInB f b = true := by
    rw [mem_blocked_files_to_remove]
    constructor
    · exact fun h => h.2
    · exact fun h => ⟨hf, h⟩
  refine ⟨?_, ?_, ?_⟩
  · rw [← hbex, ← hbtr]
    unfold blocklistStep
    simp only [List.mem_filter]
    constructor
    · intro h hbad
      have h2 := h.2
      rw [Bool.not_eq_eq_eq_not, Bool.not_true] at h2
      have h3 : List.elem f (blocked_files_to_remove candidates (blocked_data dir)) = false := h2
      rw [List.elem_iff.mpr hbad] at h3
      cases h3
    · intro hnin
      refine ⟨hf, ?_⟩
      rw [Bool.not_eq_eq_eq_not, Bool.not_true]
      show List.elem f (blocked_files_to_remove candidates (blocked_data dir)) = false
      by_cases helem : List.elem f (blocked_files_to_remove candidates (blocked_data dir)) = true
      · exact absurd (List.elem_iff.mp helem) hnin
      · exact Bool.eq_false_iff.mpr helem
  · intro hx
    have hmem : f ∈ blocked_files_to_remove candidates (blocked_data dir) :=
      hbtr.mpr (hbex.mpr hx)
    unfold blocklistStep
    exact List.mem_map_of_mem _ hmem
  · intro p hp hsrc
    unfold blocklistStep at hp
    rcases List.mem_map.mp hp with ⟨g, hg, rfl⟩
    have hgf : g = f := by
      have hdata := congrArg String.data hsrc
      rw [String.data_append, String.data_append] at hdata
      have := List.append_cancel_left hdata
      exact String.ext this
    rw [hgf] at hg
    exact (mem_blocked_files_to_remove.mp hg).2

/-- Witness for C8 at a concrete blocked candidate. -/
theorem claim_C8_blocklist_witness :
    ("20240101.0000.00.sas.rawacf.bz2" ∈ ["20240101.0000.00.sas.rawacf.bz2"]) ∧
    ("/hold" ++ "/" ++ "20240101.0000.00.sas.rawacf.bz2",
      "/hold" ++ "/blocked/" ++ "20240215" ++ "/" ++ "20240101.0000.00.sas.rawacf.bz2") ∈
      (blocklistStep "/hold" "20240215" ["20240101.0000.00.sas.rawacf.bz2"]
        [⟨"bad_files.txt", ["20240101.0000.00.sas.rawacf.bz2 radar fault\n"]⟩]).moved := by
  refine ⟨by decide, ?_⟩
  exact (claim_C8_blocklist "/hold" "20240215" ["20240101.0000.00.sas.rawacf.bz2"]
    [⟨"bad_files.txt", ["20240101.0000.00.sas.rawacf.bz2 radar fault\n"]⟩]
    "20240101.0000.00.sas.rawacf.bz2" (by decide)).2.1 (by decide)

/-! ## Claim C9 -/

theorem pyInB_failed_any (f : String) :
    pyInB "FAILED" (f ++ ": FAILED") = true := by
  exact pyInB_append_right (by decide) f

theorem classify_failed_line {f : String}
    (hnop : pyInB "FAILED open or read" (f ++ ": FAILED") = false)
    (hcol : splitColonHead (f ++ ": FAILED") = f) :
    classify_sha_line (f ++ ": FAILED") = .nomatch f := by
  unfold classify_sha_line
  rw [hnop]
  simp only [Bool.false_eq_true, if_false]
  rw [pyInB_failed_any f, if_pos rfl, hcol]

/-- Claim C9: a candidate whose filename appears in its group's fetched
manifest with a different hash than its local content produces a
`filename: FAILED` line from `sha1sum -c`; whenever the comparison loop
completes without a Python exception, that file has been popped from the
upload dict and recorded in `non_matching_files`, it survives neither
step 7's eligible set nor its `failed_files` ledger additions, and it is
moved to the holding directory's `nomatch/<cur_date>/` subdirectory. -/
theorem claim_C9_hash_mismatch (dict0 : UploadDict)
    (manifest : List (String × String)) (localHash : String → Option String)
    (env : String → FileCheckEnv) (holding curDate f h h' : String)
    (d' : UploadDict) (nm' : List String)
    (_hmem : f ∈ dict0.map Prod.fst)
    (hman : (h', f) ∈ manifest)
    (hloc : localHash f = some h)
    (hne : h ≠ h')
    (hcol : splitColonHead (f ++ ": FAILED") = f)
    (hnop : pyInB "FAILED open or read" (f ++ ": FAILED") = false)
    (hok : compare_hashes (dict0, []) (sha1sum_c manifest localHash) = .ok (d', nm')) :
    f ∉ d'.map Prod.fst ∧ f ∈ nm' ∧
    f ∉ (step7_remaining d' env).map Prod.fst ∧
    (∀ r ∈ step7_failed d' env, r.1 ≠ f) ∧
    (holding ++ "/" ++ f, holding ++ "/nomatch/" ++ curDate ++ "/" ++ f) ∈
      nomatch_step holding curDate nm' := by
  have hline : (f ++ ": FAILED") ∈ sha1sum_c manifest localHash := by
    unfold sha1sum_c
    refine List.mem_map.mpr ⟨(h', f), hman, ?_⟩
    rw [hloc]
    simp only
    rw [if_neg hne]
  have hcls := classify_failed_line hnop hcol
  obtain ⟨hnotin, hinnm⟩ := compare_hashes_of_nomatch hok hline hcls
  refine ⟨hnotin, hinnm, ?_, ?_, ?_⟩
  · intro hbad
    rcases List.mem_map.mp hbad with ⟨kv, hkv, hfst⟩
    exact hnotin (hfst ▸ List.mem_map_of_mem Prod.fst (List.mem_filter.mp hkv).1)
  · intro r hr heq
    rcases List.mem_filterMap.mp hr with ⟨kv, hkv, hsome⟩
    rcases hck : check_file (env kv.1) with _ | rr | _ <;> rw [hck] at hsome
    · cases hsome
    · cases hsome
      exact hnotin (heq ▸ List.mem_map_of_mem Prod.fst hkv)
    · cases hsome
  · exact List.mem_map_of_mem _ hinnm

/-- Witness for C9: one candidate, one manifest entry with a different
hash; the comparison loop completes and quarantines the file. -/
theorem claim_C9_hash_mismatch_witness :
    compare_hashes ([("f1.rawacf.bz2", "aaa")], [])
      (sha1sum_c [("bbb", "f1.rawacf.bz2")]
        (fun s => if s = "f1.rawacf.bz2" then some "aaa" else none)) =
      .ok ([], ["f1.rawacf.bz2"]) ∧
    ("f1.rawacf.bz2" ∈ (["f1.rawacf.bz2"] : List String)) ∧
    ("/hold" ++ "/" ++ "f1.rawacf.bz2",
      "/hold" ++ "/nomatch/" ++ "20240215" ++ "/" ++ "f1.rawacf.bz2") ∈
      nomatch_step "/hold" "20240215" ["f1.rawacf.bz2"] := by
  refine ⟨by decide, by decide, ?_⟩
  exact (claim_C9_hash_mismatch [("f1.rawacf.bz2", "aaa")]
    [("bbb", "f1.rawacf.bz2")]
    (fun s => if s = "f1.rawacf.bz2" then some "aaa" else none)
    (fun _ => ⟨0, 100, 0, none⟩) "/hold" "20240215" "f1.rawacf.bz2" "aaa" "bbb"
    [] ["f1.rawacf.bz2"]
    (by decide) (by decide) (by decide) (by decide) (by decide) (by decide)
    (by decide)).2.2.2.2

/-- Claim C10 as amended: `parse_data_filename` returns `None` for
non-strings, and — given that the five date/time slice fields and
`elements[2]` all parse as integers and `elements[3]` exists — returns
`None` exactly for element counts other than 6 and 7 (which, with
`elements[3]` present, means counts 4, 5 or at least 8); 6 elements give
the 8-tuple ending in the data type, 7 elements give the 9-tuple ending
in the channel unless the fifth element is the empty string, in which
case the channel is silently dropped.  When the split has 3 or fewer
elements, `elements[3]` does not exist and the function raises
`IndexError` instead of returning `None`. -/
theorem claim_C10_parse_amended :
    (parse_data_filename .notStr = .ok none) ∧
    (∀ (s : String) (y mo d h mi : Int) (e2 : String) (sec : Int) (ab : String),
      pyIntE (pySlice s 0 4) = .ok y → pyIntE (pySlice s 4 6) = .ok mo →
      pyIntE (pySlice s 6 8) = .ok d → pyIntE (pySlice s 9 11) = .ok h →
      pyIntE (pySlice s 11 13) = .ok mi →
      pyIndex (pySplit '.' s) 2 = .ok e2 → pyIntE e2 = .ok sec →
      pyIndex (pySplit '.' s) 3 = .ok ab →
      (((pySplit '.' s).length ≠ 6 ∧ (pySplit '.' s).length ≠ 7) →
        parse_data_filename (.pstr s) = .ok none) ∧
      (∀ dt, (pySplit '.' s).length = 6 → pyIndex (pySplit '.' s) 4 = .ok dt →
        parse_data_filename (.pstr s) =
          .ok (some ⟨y, mo, d, h, mi, sec, ab, dt, none⟩)) ∧
      (∀ ch dt, (pySplit '.' s).length = 7 →
        pyIndex (pySplit '.' s) 4 = .ok ch → pyIndex (pySplit '.' s) 5 = .ok dt →
        parse_data_filename (.pstr s) =
          .ok (some ⟨y, mo, d, h, mi, sec, ab, dt,
            if ch = "" then none else some ch⟩))) ∧
    (∀ (s : String) (y mo d h mi : Int) (e2 : String) (sec : Int),
      pyIntE (pySlice s 0 4) = .ok y → pyIntE (pySlice s 4 6) = .ok mo →
      pyIntE (pySlice s 6 8) = .ok d → pyIntE (pySlice s 9 11) = .ok h →
      pyIntE (pySlice s 11 13) = .ok mi →
      pyIndex (pySplit '.' s) 2 = .ok e2 → pyIntE e2 = .ok sec →
      pyIndex (pySplit '.' s) 3 = .error "IndexError" →
      parse_data_filename (.pstr s) = .error "IndexError") := by
  refine ⟨rfl, ?_, ?_⟩
  · intro s y mo d h mi e2 sec ab h1 h2 h3 h4 h5 h6 h7 h8
    refine ⟨?_, ?_, ?_⟩
    · rintro ⟨hn6, hn7⟩
      simp only [parse_data_filename, h1, h2, h3, h4, h5, h6, h7, h8,
        except_bind_ok, if_neg hn6, if_neg hn7]
    · intro dt h6len h9
      simp only [parse_data_filename, h1, h2, h3, h4, h5, h6, h7, h8, h9,
        except_bind_ok, if_pos h6len]
    · intro ch dt h7len h9 h10
      have hn6 : ¬((pySplit '.' s).length = 6) := by
        rw [h7len]; decide
      by_cases hch : ch = ""
      · have hch2 : ¬(ch ≠ "") := fun hh => hh hch
        simp only [parse_data_filename, h1, h2, h3, h4, h5, h6, h7, h8, h9, h10,
          except_bind_ok, if_neg hn6, if_pos h7len, if_neg hch2, if_pos hch]
      · simp only [parse_data_filename, h1, h2, h3, h4, h5, h6, h7, h8, h9, h10,
          except_bind_ok, if_neg hn6, if_pos h7len, if_pos hch, if_neg hch]
  · intro s y mo d h mi e2 sec h1 h2 h3 h4 h5 h6 h7 h8
    simp only [parse_data_filename, h1, h2, h3, h4, h5, h6, h7, h8,
      except_bind_ok, except_bind_err]

/-- Witness for the amended C10 at the canonical channel-bearing name. -/
theorem claim_C10_parse_amended_witness :
    parse_data_filename (.pstr "20200804.2200.01.mcm.a.rawacf.bz2") =
      .ok (some ⟨2020, 8, 4, 22, 0, 1, "mcm", "rawacf",
        if ("a" : String) = "" then none else some "a"⟩) := by
  exact (claim_C10_parse_amended.2.1 "20200804.2200.01.mcm.a.rawacf.bz2"
    2020 8 4 22 0 "01" 1 "mcm" (by decide) (by decide) (by decide) (by decide)
    (by decide) (by decide) (by decide) (by decide)).2.2 "a" "rawacf"
    (by decide) (by decide) (by decide)

end DataFlow
